import Mathlib

set_option autoImplicit false

deriving instance DecidableEq for Except

/-!  Verification development for the blackjack_ui graph pipeline.

Shallow embedding of `src/blackjack_ui/src/graph/graph_interop.rs` and
`src/blackjack_ui/src/application/application_context.rs`, together with
models of the external collaborators (egui_node_graph's `Graph`,
blackjack_engine's `BjkGraph`, graph compiler and Lua runtime) that the
spec describes but whose sources are not part of this tree.

Slotmaps and secondary maps are modelled as association lists; the Rust
`Index` operation on them (which panics on a missing key) is modelled as
an `Except` computation returning the `Err.panicked` error kind.  -/

namespace Blackjack

/-- UI node identity (egui_node_graph `NodeId`, a slotmap key). -/
abbrev NodeId := Nat

/-- UI input socket identity (egui_node_graph `InputId`). -/
abbrev InputId := Nat

/-- UI output socket identity (egui_node_graph `OutputId`). -/
abbrev OutputId := Nat

/-- Compiler node identity (blackjack_engine `BjkNodeId`). -/
abbrev BjkNodeId := Nat

/-- Error values flowing through the pipeline.  The first four kinds are the
spec's error taxonomy (GraphConstructionError, CompileError,
ParameterResolutionError, RuntimeError), `meshGeneration` stands for a
failing geometry-buffer generator, and `panicked` models a Rust panic
(slotmap indexing with a missing key), which in Rust is not a returned
`Err` value at all. -/
inductive Err where
  | graphConstruction (msg : String)
  | compileFailed (msg : String)
  | paramResolution (msg : String)
  | runtimeFailed (msg : String)
  | meshGeneration (msg : String)
  | panicked (msg : String)
  deriving DecidableEq

/-- Boolean success test for `Except` results. -/
def exOk {ε α : Type} : Except ε α → Bool
  | .ok _ => true
  | .error _ => false

/-- Whether a pipeline result failed specifically with a
GraphConstructionError. -/
def returnsGraphConstruction {α : Type} : Except Err α → Bool
  | .error (.graphConstruction _) => true
  | _ => false

/-- Rust `map[key]` on a slotmap / `SecondaryMap`: returns the stored value,
and panics (modelled as `Err.panicked`) when the key is absent. -/
def slotIndex {α : Type} (m : List (Nat × α)) (k : Nat) : Except Err α :=
  match m.lookup k with
  | some v => .ok v
  | none => .error (.panicked "no entry found for key")

/-- Modelled from the spec: blackjack_engine `DataType`, the type tag carried
by every graph port (the engine crate is not under src/). -/
inductive DataType where
  | scalar
  | vector
  | mesh
  | selection
  | text
  | heightmapType
  deriving DecidableEq

/-- Modelled from the spec: a widget-held value (blackjack_engine
`BlackjackValue`); scalar payloads use `ℚ` in place of `f32`.  Extraction
only ever copies these values, so the payload representation is free. -/
inductive BlackjackValue where
  | scalar (v : ℚ)
  | vector (x y z : ℚ)
  | text (s : String)
  | selection (s : String)
  deriving DecidableEq

instance : Inhabited BlackjackValue := ⟨.scalar 0⟩

/-- Modelled from the spec: an input socket of the UI graph
(egui_node_graph `InputParam`): its type, its current widget-held value,
and its owning node.  The Rust `typ.0` / `value.0` wrapper unwrapping is
inlined. -/
structure InputParam where
  typ : DataType
  value : BlackjackValue
  node : NodeId
  deriving DecidableEq

/-- Modelled from the spec: an output socket of the UI graph
(egui_node_graph `OutputParam`). -/
structure OutputParam where
  typ : DataType
  node : NodeId
  deriving DecidableEq

/-- Modelled from the spec: blackjack_ui custom node payload (`NodeData`):
operation tag and return-type classification. -/
structure NodeData where
  op_name : String
  returns : Option String
  deriving DecidableEq

/-- Modelled from the spec: a UI graph node (egui_node_graph `Node`) with
its named input and output sockets in declaration order. -/
structure UiNode where
  user_data : NodeData
  inputs : List (String × InputId)
  outputs : List (String × OutputId)
  deriving DecidableEq

/-- egui_node_graph `Node::get_input`: look up an input socket id by name;
an unknown name is a returned error (not a panic). -/
def UiNode.get_input (n : UiNode) (name : String) : Except Err InputId :=
  match n.inputs.lookup name with
  | some i => .ok i
  | none => .error (.paramResolution "there is no input with that name")

/-- Modelled from the spec: the user-editable UI graph (egui_node_graph
`Graph`): slotmaps of nodes, input params and output params, plus the
connection map keyed by input socket. -/
structure Graph where
  nodes : List (NodeId × UiNode)
  inputs : List (InputId × InputParam)
  outputs : List (OutputId × OutputParam)
  connections : List (InputId × OutputId)
  deriving DecidableEq

/-- Modelled from the spec: a compiler-graph node (blackjack_engine
`BjkNode`): operation tag, return classification, and name-addressed
typed ports. -/
structure BjkNode where
  op_name : String
  return_value : Option String
  inputs : List (String × DataType)
  outputs : List (String × DataType)
  deriving DecidableEq

/-- Modelled from the spec: the compiler graph (blackjack_engine
`BjkGraph`).  Node identities are list positions (fresh ids in
allocation order); connections pair (node, output-port-name) with
(node, input-port-name). -/
structure BjkGraph where
  nodes : List BjkNode
  connections : List ((BjkNodeId × String) × (BjkNodeId × String))
  deriving DecidableEq

/-- blackjack_engine `BjkGraph::new`. -/
def BjkGraph.new : BjkGraph := ⟨[], []⟩

/-- Modelled from the spec: `BjkGraph::add_node` allocates a fresh node with
no ports yet and returns its identity. -/
def BjkGraph.add_node (g : BjkGraph) (op : String) (ret : Option String) :
    BjkGraph × BjkNodeId :=
  ({ g with nodes := g.nodes ++ [⟨op, ret, [], []⟩] }, g.nodes.length)

/-- Modelled from the spec: `BjkGraph::add_input` registers a named typed
input port; duplicate port names on one node are forbidden. -/
def BjkGraph.add_input (g : BjkGraph) (id : BjkNodeId) (name : String)
    (ty : DataType) : Except Err BjkGraph :=
  match g.nodes.get? id with
  | none => .error (.panicked "invalid BjkNodeId")
  | some n =>
    if (n.inputs.lookup name).isSome then
      .error (.graphConstruction "duplicate input port name")
    else
      .ok { g with nodes := g.nodes.set id { n with inputs := n.inputs ++ [(name, ty)] } }

/-- Modelled from the spec: `BjkGraph::add_output`, symmetric to
`BjkGraph.add_input`. -/
def BjkGraph.add_output (g : BjkGraph) (id : BjkNodeId) (name : String)
    (ty : DataType) : Except Err BjkGraph :=
  match g.nodes.get? id with
  | none => .error (.panicked "invalid BjkNodeId")
  | some n =>
    if (n.outputs.lookup name).isSome then
      .error (.graphConstruction "duplicate output port name")
    else
      .ok { g with nodes := g.nodes.set id { n with outputs := n.outputs ++ [(name, ty)] } }

/-- Modelled from the spec: `BjkGraph::add_connection`: both ports must have
been registered under their names and their types must match, otherwise a
GraphConstructionError is returned; on success the connection is
recorded. -/
def BjkGraph.add_connection (g : BjkGraph) (from_node : BjkNodeId)
    (from_param : String) (to_node : BjkNodeId) (to_param : String) :
    Except Err BjkGraph :=
  match g.nodes.get? from_node, g.nodes.get? to_node with
  | some fn, some tn =>
    match fn.outputs.lookup from_param, tn.inputs.lookup to_param with
    | some oty, some ity =>
      if oty = ity then
        .ok { g with connections := g.connections ++ [((from_node, from_param), (to_node, to_param))] }
      else
        .error (.graphConstruction "connection type mismatch")
    | _, _ => .error (.graphConstruction "connection references an unregistered port")
  | _, _ => .error (.graphConstruction "connection references an unknown node")

/-- The bidirectional UI-id / compiler-id mapping built by translation
(`NodeMapping` in graph_interop.rs; the two unnamed tuple fields are named
`fwd` and `rev` here).  Indexing it in Rust panics on a missing key, which
is `slotIndex` on the corresponding field. -/
structure NodeMapping where
  fwd : List (NodeId × BjkNodeId)
  rev : List (BjkNodeId × NodeId)
  deriving DecidableEq

/-- The accumulator threaded through the node-registration loop of
`ui_graph_to_blackjack_graph`: the compiler graph under construction, the
two direction maps, and the socket-id-to-name side indexes. -/
structure TransState where
  bjk_graph : BjkGraph
  mapping : List (NodeId × BjkNodeId)
  rev_mapping : List (BjkNodeId × NodeId)
  input_names : List (InputId × String)
  output_names : List (OutputId × String)
  deriving DecidableEq

/-- The `for (input_name, input_id) in &node.inputs` loop body of
`ui_graph_to_blackjack_graph`: register the typed input port on the
compiler node (the socket type read via `graph.inputs[*input_id]`, a
panicking index) and record the id-to-name entry. -/
def registerInputs (g : Graph) (bjk_id : BjkNodeId) :
    List (String × InputId) → BjkGraph → List (InputId × String) →
    Except Err (BjkGraph × List (InputId × String))
  | [], bjk, names => .ok (bjk, names)
  | (input_name, input_id) :: rest, bjk, names =>
    match slotIndex g.inputs input_id with
    | .error e => .error e
    | .ok ip =>
      match bjk.add_input bjk_id input_name ip.typ with
      | .error e => .error e
      | .ok bjk' => registerInputs g bjk_id rest bjk' ((input_id, input_name) :: names)

/-- The `for (output_name, output_id) in &node.outputs` loop body of
`ui_graph_to_blackjack_graph`, symmetric to `registerInputs`. -/
def registerOutputs (g : Graph) (bjk_id : BjkNodeId) :
    List (String × OutputId) → BjkGraph → List (OutputId × String) →
    Except Err (BjkGraph × List (OutputId × String))
  | [], bjk, names => .ok (bjk, names)
  | (output_name, output_id) :: rest, bjk, names =>
    match slotIndex g.outputs output_id with
    | .error e => .error e
    | .ok op =>
      match bjk.add_output bjk_id output_name op.typ with
      | .error e => .error e
      | .ok bjk' => registerOutputs g bjk_id rest bjk' ((output_id, output_name) :: names)

/-- One iteration of the `for (node_id, node) in &graph.nodes` loop of
`ui_graph_to_blackjack_graph`: allocate the compiler node, record both
mapping directions, then register all sockets. -/
def processNode (g : Graph) (st : TransState) (node_id : NodeId)
    (node : UiNode) : Except Err TransState :=
  let p := st.bjk_graph.add_node node.user_data.op_name node.user_data.returns
  match registerInputs g p.2 node.inputs p.1 st.input_names with
  | .error e => .error e
  | .ok (bjk2, input_names) =>
    match registerOutputs g p.2 node.outputs bjk2 st.output_names with
    | .error e => .error e
    | .ok (bjk3, output_names) =>
      .ok ⟨bjk3, (node_id, p.2) :: st.mapping, (p.2, node_id) :: st.rev_mapping,
           input_names, output_names⟩

/-- The full node-registration pass of `ui_graph_to_blackjack_graph`. -/
def processNodes (g : Graph) :
    List (NodeId × UiNode) → TransState → Except Err TransState
  | [], st => .ok st
  | (nid, nd) :: rest, st =>
    match processNode g st nid nd with
    | .error e => .error e
    | .ok st' => processNodes g rest st'

/-- One iteration of the `for (input, output) in &graph.connections` loop of
`ui_graph_to_blackjack_graph`, in source order: the two panicking
name-index lookups, the two panicking owner/mapping lookups, then
`BjkGraph::add_connection`. -/
def processConnection (g : Graph) (st : TransState) (bjk : BjkGraph)
    (c : InputId × OutputId) : Except Err BjkGraph :=
  match slotIndex st.input_names c.1 with
  | .error e => .error e
  | .ok input_name =>
    match slotIndex st.output_names c.2 with
    | .error e => .error e
    | .ok output_name =>
      match slotIndex g.inputs c.1 with
      | .error e => .error e
      | .ok ip =>
        match slotIndex st.mapping ip.node with
        | .error e => .error e
        | .ok input_node_id =>
          match slotIndex g.outputs c.2 with
          | .error e => .error e
          | .ok op =>
            match slotIndex st.mapping op.node with
            | .error e => .error e
            | .ok output_node_id =>
              bjk.add_connection output_node_id output_name input_node_id input_name

/-- The full connection-registration pass of `ui_graph_to_blackjack_graph`. -/
def processConnections (g : Graph) (st : TransState) :
    List (InputId × OutputId) → BjkGraph → Except Err BjkGraph
  | [], bjk => .ok bjk
  | c :: rest, bjk =>
    match processConnection g st bjk c with
    | .error e => .error e
    | .ok bjk' => processConnections g st rest bjk'

/-- The empty accumulator `ui_graph_to_blackjack_graph` starts from. -/
def initTransState : TransState := ⟨BjkGraph.new, [], [], [], []⟩

/-- graph_interop.rs `ui_graph_to_blackjack_graph`: register every node and
its sockets, then every connection; any failure aborts the whole
translation. -/
def ui_graph_to_blackjack_graph (graph : Graph) :
    Except Err (BjkGraph × NodeMapping) :=
  match processNodes graph graph.nodes initTransState with
  | .error e => .error e
  | .ok st =>
    match processConnections graph st graph.connections st.bjk_graph with
    | .error e => .error e
    | .ok bjk => .ok (bjk, ⟨st.mapping, st.rev_mapping⟩)

/-- Modelled from the spec: one external-parameter descriptor of a compiled
program (blackjack_engine): the compiler node, the input-port name, and
the target address the runtime reads the value from. -/
structure ExternalParamDef where
  node_id : BjkNodeId
  param_name : String
  addr : String
  deriving DecidableEq

/-- Modelled from the spec: a compiled program (blackjack_engine
`CompiledProgram`): its textual Lua form plus the external-parameter
descriptors; the executable representation is opaque to this core. -/
structure CompiledProgram where
  lua_program : String
  external_parameters : List ExternalParamDef
  deriving DecidableEq

/-- Modelled from the spec: blackjack_engine `ExternalParameterValues`, an
address-keyed value table. -/
abbrev ExternalParameterValues := List (String × BlackjackValue)

/-- Hash-map insertion with overwrite semantics: the new entry replaces any
existing entry under the same address. -/
def insertValue (params : ExternalParameterValues) (k : String)
    (v : BlackjackValue) : ExternalParameterValues :=
  (k, v) :: params.filter (fun p => p.1 ≠ k)

/-- The body of the `for external_def in &program.external_parameters` loop
of `extract_graph_params`, up to the value that gets inserted:
`mapping[external_def.node_id]` (panicking index), `graph[node]`
(panicking index), `get_input` (returned error), `graph[input]`
(panicking index), then the widget value. -/
def resolveParam (graph : Graph) (mapping : NodeMapping)
    (d : ExternalParamDef) : Except Err BlackjackValue :=
  match slotIndex mapping.rev d.node_id with
  | .error e => .error e
  | .ok node =>
    match slotIndex graph.nodes node with
    | .error e => .error e
    | .ok uiNode =>
      match uiNode.get_input d.param_name with
      | .error e => .error e
      | .ok input =>
        match slotIndex graph.inputs input with
        | .error e => .error e
        | .ok ip => .ok ip.value

/-- The descriptor loop of `extract_graph_params`, threading the value
table. -/
def extractLoop (graph : Graph) (mapping : NodeMapping) :
    List ExternalParamDef → ExternalParameterValues →
    Except Err ExternalParameterValues
  | [], params => .ok params
  | d :: rest, params =>
    match resolveParam graph mapping d with
    | .error e => .error e
    | .ok v => extractLoop graph mapping rest (insertValue params d.addr v)

/-- graph_interop.rs `extract_graph_params`: one table insertion per
external-parameter descriptor, keyed by the descriptor address. -/
def extract_graph_params (graph : Graph) (mapping : NodeMapping)
    (program : CompiledProgram) : Except Err ExternalParameterValues :=
  extractLoop graph mapping program.external_parameters []

/-- The value `resolveParam` yields when it succeeds (and a default
otherwise); used to phrase the extraction characterisation. -/
def resolvedValue (graph : Graph) (mapping : NodeMapping)
    (d : ExternalParamDef) : BlackjackValue :=
  match resolveParam graph mapping d with
  | .ok v => v
  | .error _ => default

/-! ## Artifact extraction (`ApplicationContext::build_and_render_mesh`) -/

/-- A 3d vector / color payload; coordinates use `ℚ` in place of `f32`, the
extraction logic never inspects them. -/
abbrev Vec3 := ℚ × ℚ × ℚ

/-- blackjack_engine `VertexIndexBuffers`. -/
structure VertexIndexBuffers where
  positions : List Vec3
  normals : List Vec3
  indices : List Nat
  deriving DecidableEq

/-- blackjack_engine `FaceOverlayBuffers`. -/
structure FaceOverlayBuffers where
  positions : List Vec3
  colors : List Vec3
  deriving DecidableEq

/-- blackjack_engine `LineBuffers`. -/
structure LineBuffers where
  positions : List Vec3
  colors : List Vec3
  deriving DecidableEq

/-- blackjack_engine `PointBuffers`. -/
structure PointBuffers where
  positions : List Vec3
  deriving DecidableEq

/-- Modelled from the spec: the part of a half-edge mesh's generation
configuration read here (`mesh.gen_config.smooth_normals`). -/
structure HalfEdgeGenConfig where
  smooth_normals : Bool

/-- Modelled from the spec: a half-edge mesh artifact, abstracted to the
operations `build_and_render_mesh` invokes on it.  The fallible buffer
generators (they return `Result` in the engine) are arbitrary
`Except`-valued functions; the infallible ones are plain values. -/
structure HalfEdgeMesh where
  gen_config : HalfEdgeGenConfig
  generate_triangle_buffers_smooth : Bool → Except Err VertexIndexBuffers
  generate_triangle_buffers_flat : Bool → Except Err VertexIndexBuffers
  generate_face_overlay_buffers : FaceOverlayBuffers
  generate_halfedge_arrow_buffers : Except Err LineBuffers
  generate_line_buffers : Except Err LineBuffers
  generate_point_buffers : PointBuffers

/-- Modelled from the spec: a height-map artifact; its triangle-buffer
generation is infallible in the source (no `?`). -/
structure HeightMap where
  generate_triangle_buffers : VertexIndexBuffers

/-- blackjack_engine `RenderableThing`: the tagged renderable artifact. -/
inductive RenderableThing where
  | halfEdgeMesh (mesh : HalfEdgeMesh)
  | heightMap (heightmap : HeightMap)

/-- viewport_3d `FaceDrawMode` (`Real` / `Flat` / `Smooth` / `None`). -/
inductive FaceDrawMode where
  | real
  | flat
  | smooth
  | none
  deriving DecidableEq

/-- viewport_3d `EdgeDrawMode` (`HalfEdge` / `FullEdge` / `None`). -/
inductive EdgeDrawMode where
  | halfEdge
  | fullEdge
  | none
  deriving DecidableEq

/-- The slice of viewport_3d `Viewport3dSettings` read by
`build_and_render_mesh`. -/
structure Viewport3dSettings where
  face_mode : FaceDrawMode
  edge_mode : EdgeDrawMode
  deriving DecidableEq

/-- A generated geometry buffer set, tagged by kind. -/
inductive BufferSet where
  | triangles (b : VertexIndexBuffers)
  | overlay (b : FaceOverlayBuffers)
  | lines (b : LineBuffers)
  | points (b : PointBuffers)
  deriving DecidableEq

/-- An upload call issued to the render subsystem (`add_base_mesh`,
`add_overlay_mesh`, `add_wireframe`, `add_point_cloud`). -/
inductive RenderCall where
  | add_base_mesh (b : VertexIndexBuffers)
  | add_overlay_mesh (b : FaceOverlayBuffers)
  | add_wireframe (b : LineBuffers)
  | add_point_cloud (b : PointBuffers)
  deriving DecidableEq

/-- What one `build_and_render_mesh` call did before returning or aborting:
the buffer sets it generated, in source order, and the upload calls it
issued (a set is only uploaded when its position list is non-empty). -/
structure ExtractOut where
  produced : List BufferSet
  submitted : List RenderCall
  deriving DecidableEq

/-- The face-mode match of `build_and_render_mesh`: which triangle-buffer
generator runs, if any; `?` failures propagate. -/
def triangleStep (mesh : HalfEdgeMesh) (fm : FaceDrawMode) :
    Except Err (Option VertexIndexBuffers) :=
  match fm with
  | .real =>
    if mesh.gen_config.smooth_normals then
      (mesh.generate_triangle_buffers_smooth false).map some
    else
      (mesh.generate_triangle_buffers_flat false).map some
  | .flat => (mesh.generate_triangle_buffers_flat true).map some
  | .smooth => (mesh.generate_triangle_buffers_smooth true).map some
  | .none => .ok none

/-- The edge-mode match of `build_and_render_mesh`. -/
def edgeStep (mesh : HalfEdgeMesh) (em : EdgeDrawMode) :
    Except Err (Option LineBuffers) :=
  match em with
  | .halfEdge => mesh.generate_halfedge_arrow_buffers.map some
  | .fullEdge => mesh.generate_line_buffers.map some
  | .none => .ok none

/-- `ApplicationContext::build_and_render_mesh`: dispatch on the held
artifact, generate the buffer sets in source order (triangles, overlay,
lines, points for a half-edge mesh), upload each non-empty one, and
propagate the first generator failure as the return value.  Buffer sets
generated and uploaded before a later `?` failure are kept in the
output, matching the render-context mutations already performed. -/
def build_and_render_mesh (renderable_thing : Option RenderableThing)
    (vs : Viewport3dSettings) : ExtractOut × Except Err Unit :=
  match renderable_thing with
  | some (.halfEdgeMesh mesh) =>
    match triangleStep mesh vs.face_mode with
    | .error e => (⟨[], []⟩, .error e)
    | .ok tri =>
      let produced1 := match tri with
        | some b => [BufferSet.triangles b]
        | none => []
      let submitted1 := match tri with
        | some b => if b.positions.isEmpty then [] else [RenderCall.add_base_mesh b]
        | none => []
      let ov := mesh.generate_face_overlay_buffers
      let produced2 := [BufferSet.overlay ov]
      let submitted2 := if ov.positions.isEmpty then [] else [RenderCall.add_overlay_mesh ov]
      match edgeStep mesh vs.edge_mode with
      | .error e => (⟨produced1 ++ produced2, submitted1 ++ submitted2⟩, .error e)
      | .ok ln =>
        let produced3 := match ln with
          | some b => [BufferSet.lines b]
          | none => []
        let submitted3 := match ln with
          | some b => if b.positions.isEmpty then [] else [RenderCall.add_wireframe b]
          | none => []
        let pb := mesh.generate_point_buffers
        let produced4 := [BufferSet.points pb]
        let submitted4 := if pb.positions.isEmpty then [] else [RenderCall.add_point_cloud pb]
        (⟨produced1 ++ produced2 ++ produced3 ++ produced4,
          submitted1 ++ submitted2 ++ submitted3 ++ submitted4⟩, .ok ())
  | some (.heightMap heightmap) =>
    let b := heightmap.generate_triangle_buffers
    (⟨[BufferSet.triangles b],
      if b.positions.isEmpty then [] else [RenderCall.add_base_mesh b]⟩, .ok ())
  | Option.none => (⟨[], []⟩, .ok ())

/-- The triangle buffer sets among a produced list. -/
def triangleSets (l : List BufferSet) : List VertexIndexBuffers :=
  l.filterMap fun s =>
    match s with
    | .triangles b => some b
    | _ => none

/-! ## Per-frame orchestration (`ApplicationContext`) -/

/-- Modelled from the spec: the external engine entry points consumed by the
orchestrator — `compile_graph` of blackjack_engine::graph_compiler and
`run_program` / `run_program_side_effects` of
blackjack_engine::lua_engine, each an arbitrary function with the
contract shape of spec section 6. -/
structure EngineStages where
  compile_graph : BjkGraph → BjkNodeId → Bool → Except Err CompiledProgram
  run_program : String → ExternalParameterValues → Except Err RenderableThing
  run_program_side_effects : String → ExternalParameterValues → Except Err Unit

/-- The slice of egui_node_graph `GraphEditorState` read here: the graph. -/
structure GraphEditorState where
  graph : Graph

/-- blackjack_ui `CustomGraphState`: the active (preview) node selection and
the one-shot pending side-effect slot. -/
structure CustomGraphState where
  active_node : Option NodeId
  run_side_effect : Option NodeId
  deriving DecidableEq

/-- The split tree held by the context; never read by the functions in
scope, kept as an abstract placeholder. -/
inductive SplitTree where
  | default_tree
  deriving DecidableEq

/-- application_context.rs `ApplicationContext`: the held renderable
artifact and the split tree. -/
structure ApplicationContext where
  renderable_thing : Option RenderableThing
  split_tree : SplitTree

/-- The root-UI action variant produced by `update`
(`AppRootAction::SetCodeViewerCode`); other variants of the enum are not
produced by the code in scope. -/
inductive AppRootAction where
  | setCodeViewerCode (code : String)

/-- `ApplicationContext::compile_program`: translate the UI graph, look the
node up in the forward mapping (a panicking index), compile, extract
parameters. -/
def compile_program (eng : EngineStages) (editor_state : GraphEditorState)
    (node : NodeId) (is_side_effect : Bool) :
    Except Err (CompiledProgram × ExternalParameterValues) :=
  match ui_graph_to_blackjack_graph editor_state.graph with
  | .error e => .error e
  | .ok (bjk_graph, mapping) =>
    match slotIndex mapping.fwd node with
    | .error e => .error e
    | .ok final_node =>
      match eng.compile_graph bjk_graph final_node is_side_effect with
      | .error e => .error e
      | .ok program =>
        match extract_graph_params editor_state.graph mapping program with
        | .error e => .error e
        | .ok params => .ok (program, params)

/-- `ApplicationContext::run_active_node`: with an active node, compile and
run it, replacing the held artifact only on success; with none, clear the
held artifact.  Returns the new context and the compiled-code result. -/
def run_active_node (eng : EngineStages) (ctx : ApplicationContext)
    (editor_state : GraphEditorState) (custom_state : CustomGraphState) :
    ApplicationContext × Except Err String :=
  match custom_state.active_node with
  | some active =>
    match compile_program eng editor_state active false with
    | .error e => (ctx, .error e)
    | .ok (program, params) =>
      match eng.run_program program.lua_program params with
      | .error e => (ctx, .error e)
      | .ok mesh => ({ ctx with renderable_thing := some mesh }, .ok program.lua_program)
  | none => ({ ctx with renderable_thing := none }, .ok "")

/-- `ApplicationContext::run_side_effects`: `take` the pending side-effect
slot (clearing it in the same step), then compile and run the node in
side-effecting mode, discarding the result value.  Returns the context
(never written), the new custom state, and the unit result. -/
def run_side_effects (eng : EngineStages) (ctx : ApplicationContext)
    (editor_state : GraphEditorState) (custom_state : CustomGraphState) :
    ApplicationContext × CustomGraphState × Except Err Unit :=
  match custom_state.run_side_effect with
  | some side_effect =>
    let custom_state' := { custom_state with run_side_effect := none }
    match compile_program eng editor_state side_effect true with
    | .error e => (ctx, custom_state', .error e)
    | .ok (program, params) =>
      match eng.run_program_side_effects program.lua_program params with
      | .error e => (ctx, custom_state', .error e)
      | .ok _ => (ctx, custom_state', .ok ())
  | none => (ctx, custom_state, .ok ())

/-- Everything one `ApplicationContext::update` cycle leaves behind: the
context, the custom graph state, the returned UI actions, and what the
artifact-extraction step did. -/
structure UpdateResult where
  ctx : ApplicationContext
  custom_state : CustomGraphState
  actions : List AppRootAction
  render : ExtractOut × Except Err Unit

/-- `ApplicationContext::update`: run the active node (an error is painted
on screen, not turned into an action), run the pending side effect (an
error is only logged), then extract-and-render from the currently held
artifact (an error is painted). -/
def update (eng : EngineStages) (ctx : ApplicationContext)
    (editor_state : GraphEditorState) (custom_state : CustomGraphState)
    (vs : Viewport3dSettings) : UpdateResult :=
  let r1 := run_active_node eng ctx editor_state custom_state
  let actions := match r1.2 with
    | .ok code => [AppRootAction.setCodeViewerCode code]
    | .error _ => []
  let r2 := run_side_effects eng r1.1 editor_state custom_state
  let render := build_and_render_mesh r2.1.renderable_thing vs
  ⟨r2.1, r2.2.1, actions, render⟩

/-! ## Concrete fixtures used by the witnesses -/

/-- A two-node UI graph: a "cube" node (scalar input "size" holding 5/2, mesh
output "out") wired into an "output" node (mesh input "in"). -/
def gW : Graph :=
  ⟨[(0, ⟨⟨"cube", some "out_mesh"⟩, [("size", 10)], [("out", 50)]⟩),
    (1, ⟨⟨"output", none⟩, [("in", 11)], []⟩)],
   [(10, ⟨.scalar, .scalar (5/2), 0⟩), (11, ⟨.mesh, .scalar 0, 1⟩)],
   [(50, ⟨.mesh, 0⟩)],
   [(11, 50)]⟩

/-- A UI graph whose single connection references input socket 100, which no
node has registered (a stale connection to a deleted node). -/
def gC5 : Graph :=
  ⟨[(0, ⟨⟨"cube", some "out_mesh"⟩, [], []⟩)], [], [], [(100, 200)]⟩

/-- A concrete height-map artifact. -/
def hmW : HeightMap := ⟨⟨[(0, 0, 0)], [(0, 1, 0)], [0]⟩⟩

/-- A context currently holding an artifact. -/
def ctxW : ApplicationContext := ⟨some (.heightMap hmW), .default_tree⟩

/-- An editor state over the fixture graph. -/
def esW : GraphEditorState := ⟨gW⟩

/-- Engine stages that fail at the compile step. -/
def engFail : EngineStages :=
  ⟨fun _ _ _ => .error (.compileFailed "compiler rejected the graph"),
   fun _ _ => .error (.runtimeFailed "not reached"),
   fun _ _ => .error (.runtimeFailed "not reached")⟩

/-- Custom state with node 0 active and no pending side effect. -/
def csActive : CustomGraphState := ⟨some 0, none⟩

/-- Custom state with no active node. -/
def csNone : CustomGraphState := ⟨none, none⟩

/-- Custom state with a pending side-effect request on node 0. -/
def csSide : CustomGraphState := ⟨none, some 0⟩

/-- Draw settings with both modes off. -/
def vsW : Viewport3dSettings := ⟨.none, .none⟩

/-! ## Artifact-extraction fixtures -/

/-- A concrete half-edge mesh whose generators all succeed with non-empty
buffers. -/
def meshW : HalfEdgeMesh :=
  ⟨⟨true⟩,
   fun _ => .ok ⟨[(0, 0, 0)], [(0, 1, 0)], [0]⟩,
   fun _ => .ok ⟨[(0, 0, 0)], [(0, 0, 1)], [0]⟩,
   ⟨[(0, 0, 0)], [(1, 0, 0)]⟩,
   .ok ⟨[(0, 0, 0)], [(1, 1, 0)]⟩,
   .ok ⟨[(0, 0, 0)], [(1, 1, 1)]⟩,
   ⟨[(0, 0, 0)]⟩⟩

/-- `meshW` with a failing flat triangle-buffer generator. -/
def meshBad : HalfEdgeMesh :=
  { meshW with
    generate_triangle_buffers_flat := fun _ => .error (.meshGeneration "triangulation failed") }

/-- `meshW` with a failing half-edge-arrow generator. -/
def meshEdgeBad : HalfEdgeMesh :=
  { meshW with
    generate_halfedge_arrow_buffers := .error (.meshGeneration "bad arrows") }

/-- Draw settings: flat-debug faces, no edges. -/
def vsFlat : Viewport3dSettings := ⟨.flat, .none⟩

/-- Draw settings: no faces, half-edge-arrow edges. -/
def vsArrows : Viewport3dSettings := ⟨.none, .halfEdge⟩

/-- The compiler graph produced by translating `gW`. -/
def bjkW : BjkGraph :=
  ⟨[⟨"cube", some "out_mesh", [("size", .scalar)], [("out", .mesh)]⟩,
    ⟨"output", none, [("in", .mesh)], []⟩],
   [((0, "out"), (1, "in"))]⟩

/-- The node mapping produced by translating `gW`. -/
def mWm : NodeMapping := ⟨[(1, 1), (0, 0)], [(1, 1), (0, 0)]⟩

/-- A compiled program with one external-parameter descriptor: node 0's
input "size", published at address "p0". -/
def pW : CompiledProgram := ⟨"code", [⟨0, "size", "p0"⟩]⟩

/-- A compiled program with two descriptors sharing the address "p0"; the
later one names node 1's input "in". -/
def pDup : CompiledProgram := ⟨"code", [⟨0, "size", "p0"⟩, ⟨1, "in", "p0"⟩]⟩

/-! ## Orchestration lemmas -/

theorem run_side_effects_ctx (eng : EngineStages) (ctx : ApplicationContext)
    (es : GraphEditorState) (cs : CustomGraphState) :
    (run_side_effects eng ctx es cs).1 = ctx := by
  unfold run_side_effects
  split
  · split
    · rfl
    · split
      · rfl
      · rfl
  · rfl

theorem run_side_effects_slot_cleared (eng : EngineStages)
    (ctx : ApplicationContext) (es : GraphEditorState) (cs : CustomGraphState)
    (s : NodeId) (h : cs.run_side_effect = some s) :
    (run_side_effects eng ctx es cs).2.1.run_side_effect = none := by
  unfold run_side_effects
  rw [h]
  dsimp only
  split
  · rfl
  · split <;> rfl

theorem update_ctx (eng : EngineStages) (ctx : ApplicationContext)
    (es : GraphEditorState) (cs : CustomGraphState) (vs : Viewport3dSettings) :
    (update eng ctx es cs vs).ctx = (run_active_node eng ctx es cs).1 :=
  run_side_effects_ctx eng (run_active_node eng ctx es cs).1 es cs

theorem update_custom_state (eng : EngineStages) (ctx : ApplicationContext)
    (es : GraphEditorState) (cs : CustomGraphState) (vs : Viewport3dSettings) :
    (update eng ctx es cs vs).custom_state =
      (run_side_effects eng (run_active_node eng ctx es cs).1 es cs).2.1 := rfl

/-! ## C1 -/

/-- C1: in an update cycle whose active-node run fails at any stage, the
held renderable artifact after `update` equals the one before; in a cycle
with no active node designated, the held artifact after `update` is
`none` regardless of its prior value. -/
theorem update_artifact_failure_and_none (eng : EngineStages)
    (ctx : ApplicationContext) (es : GraphEditorState) (cs : CustomGraphState)
    (vs : Viewport3dSettings) :
    (∀ a, cs.active_node = some a →
      exOk (run_active_node eng ctx es cs).2 = false →
      (update eng ctx es cs vs).ctx.renderable_thing = ctx.renderable_thing) ∧
    (cs.active_node = none →
      (update eng ctx es cs vs).ctx.renderable_thing = none) := by
  constructor
  · intro a ha hfail
    rw [update_ctx]
    unfold run_active_node at hfail ⊢
    rw [ha] at hfail ⊢
    dsimp only at hfail ⊢
    cases h : compile_program eng es a false with
    | error e => rfl
    | ok pr =>
      obtain ⟨program, params⟩ := pr
      dsimp only
      rw [h] at hfail
      dsimp only at hfail
      cases h2 : eng.run_program program.lua_program params with
      | error e => rfl
      | ok mesh =>
        rw [h2] at hfail
        simp [exOk] at hfail
  · intro h
    rw [update_ctx]
    unfold run_active_node
    rw [h]

/-- Witness for C1: with engine stages whose compiler fails and node 0
active, the artifact survives the cycle; with no active node, the held
artifact is cleared. -/
theorem update_artifact_failure_and_none_witness :
    csActive.active_node = some 0 ∧
    exOk (run_active_node engFail ctxW esW csActive).2 = false ∧
    (update engFail ctxW esW csActive vsW).ctx.renderable_thing =
      ctxW.renderable_thing ∧
    (update engFail ctxW esW csNone vsW).ctx.renderable_thing = none :=
  ⟨rfl, rfl,
   (update_artifact_failure_and_none engFail ctxW esW csActive vsW).1 0 rfl rfl,
   (update_artifact_failure_and_none engFail ctxW esW csNone vsW).2 rfl⟩

/-! ## C2 -/

/-- C2: after an update cycle in which a side-effect request was pending,
the pending-side-effect slot is empty, whether the side-effect run
succeeded or failed at any stage, so a request never re-fires on a later
cycle. -/
theorem update_side_effect_slot_emptied (eng : EngineStages)
    (ctx : ApplicationContext) (es : GraphEditorState) (cs : CustomGraphState)
    (vs : Viewport3dSettings) (s : NodeId) (h : cs.run_side_effect = some s) :
    (update eng ctx es cs vs).custom_state.run_side_effect = none := by
  rw [update_custom_state]
  exact run_side_effects_slot_cleared eng
    (run_active_node eng ctx es cs).1 es cs s h

/-- Witness for C2: a pending side effect on node 0 whose compilation fails
still leaves the slot empty after the cycle. -/
theorem update_side_effect_slot_emptied_witness :
    csSide.run_side_effect = some 0 ∧
    (update engFail ctxW esW csSide vsW).custom_state.run_side_effect = none :=
  ⟨rfl, update_side_effect_slot_emptied engFail ctxW esW csSide vsW 0 rfl⟩

/-! ## C10 -/

/-- C10: handling the pending side-effect request never writes the held
renderable artifact — `run_side_effects` returns the context unchanged in
every branch — and after a full `update` cycle the held artifact is
exactly whatever active-node handling left there. -/
theorem side_effects_never_write_artifact (eng : EngineStages)
    (ctx : ApplicationContext) (es : GraphEditorState) (cs : CustomGraphState)
    (vs : Viewport3dSettings) :
    (run_side_effects eng ctx es cs).1 = ctx ∧
    (update eng ctx es cs vs).ctx.renderable_thing =
      (run_active_node eng ctx es cs).1.renderable_thing :=
  ⟨run_side_effects_ctx eng ctx es cs, by rw [update_ctx]⟩

/-! ## C7 -/

/-- Counterexample to C7 as stated: with a half-edge mesh whose flat
triangle-buffer generator fails and face-mode = flat-debug, artifact
extraction does not return successfully, and the unconditional overlay
and point buffer sets are not attempted either (the `?` aborts the whole
extraction before them). -/
theorem build_extraction_can_fail :
    exOk (build_and_render_mesh (some (.halfEdgeMesh meshBad)) vsFlat).2 = false ∧
    (build_and_render_mesh (some (.halfEdgeMesh meshBad)) vsFlat).1.produced = [] :=
  ⟨rfl, rfl⟩

/-- C7 (amended): extraction succeeds whenever every buffer-generation step
it invokes succeeds — in particular always for no artifact and for a
height map — but when an invoked generator fails, the whole extraction
aborts with that failure and the remaining buffer sets are not attempted:
a triangle-step failure yields no buffer set at all, and an edge-step
failure yields exactly the triangle (if any) and overlay sets, never the
point set. -/
theorem build_extraction_failure_propagation (mesh : HalfEdgeMesh)
    (vs : Viewport3dSettings) :
    (∀ t, triangleStep mesh vs.face_mode = .ok t →
      ∀ l, edgeStep mesh vs.edge_mode = .ok l →
        (build_and_render_mesh (some (.halfEdgeMesh mesh)) vs).2 = .ok ()) ∧
    (∀ e, triangleStep mesh vs.face_mode = .error e →
      build_and_render_mesh (some (.halfEdgeMesh mesh)) vs = (⟨[], []⟩, .error e)) ∧
    (∀ t e, triangleStep mesh vs.face_mode = .ok t →
      edgeStep mesh vs.edge_mode = .error e →
      (build_and_render_mesh (some (.halfEdgeMesh mesh)) vs).2 = .error e ∧
      (build_and_render_mesh (some (.halfEdgeMesh mesh)) vs).1.produced =
        (match t with
         | some b => [BufferSet.triangles b]
         | none => []) ++ [BufferSet.overlay mesh.generate_face_overlay_buffers]) ∧
    (∀ h : HeightMap,
      (build_and_render_mesh (some (.heightMap h)) vs).2 = .ok ()) ∧
    (build_and_render_mesh (none : Option RenderableThing) vs).2 = .ok () := by
  refine ⟨?_, ?_, ?_, fun h => rfl, rfl⟩
  · intro t ht l hl
    unfold build_and_render_mesh
    dsimp only
    rw [ht]
    dsimp only
    rw [hl]
  · intro e he
    unfold build_and_render_mesh
    dsimp only
    rw [he]
  · intro t e ht he
    constructor
    · unfold build_and_render_mesh
      dsimp only
      rw [ht]
      dsimp only
      rw [he]
    · unfold build_and_render_mesh
      dsimp only
      rw [ht]
      dsimp only
      rw [he]

/-- Witness for C7 (amended), instantiating the success case, the
triangle-failure case, the edge-failure case, the height-map case and the
empty case at concrete artifacts. -/
theorem build_extraction_failure_propagation_witness :
    (build_and_render_mesh (some (.halfEdgeMesh meshW)) vsW).2 = .ok () ∧
    build_and_render_mesh (some (.halfEdgeMesh meshBad)) vsFlat =
      (⟨[], []⟩, .error (.meshGeneration "triangulation failed")) ∧
    (build_and_render_mesh (some (.halfEdgeMesh meshEdgeBad)) vsArrows).2 =
      .error (.meshGeneration "bad arrows") ∧
    (build_and_render_mesh (some (.heightMap hmW)) vsW).2 = .ok () ∧
    (build_and_render_mesh (none : Option RenderableThing) vsW).2 = .ok () :=
  ⟨(build_extraction_failure_propagation meshW vsW).1 none rfl none rfl,
   (build_extraction_failure_propagation meshBad vsFlat).2.1
     (.meshGeneration "triangulation failed") rfl,
   ((build_extraction_failure_propagation meshEdgeBad vsArrows).2.2.1
     none (.meshGeneration "bad arrows") rfl rfl).1,
   (build_extraction_failure_propagation meshW vsW).2.2.2.1 hmW,
   (build_extraction_failure_propagation meshW vsW).2.2.2.2⟩

/-! ## C8 -/

/-- C8: for a half-edge-mesh artifact with face-mode = none and edge-mode =
none, extraction succeeds and generates exactly the overlay buffer set
and the point buffer set, in that order — no triangle set and no line
set. -/
theorem build_none_modes_overlay_points (mesh : HalfEdgeMesh)
    (vs : Viewport3dSettings) (hf : vs.face_mode = FaceDrawMode.none)
    (he : vs.edge_mode = EdgeDrawMode.none) :
    (build_and_render_mesh (some (.halfEdgeMesh mesh)) vs).1.produced =
      [BufferSet.overlay mesh.generate_face_overlay_buffers,
       BufferSet.points mesh.generate_point_buffers] ∧
    (build_and_render_mesh (some (.halfEdgeMesh mesh)) vs).2 = .ok () := by
  unfold build_and_render_mesh triangleStep edgeStep
  dsimp only
  rw [hf, he]
  exact ⟨rfl, rfl⟩

/-- Witness for C8 at the concrete mesh `meshW` and all-off draw
settings. -/
theorem build_none_modes_overlay_points_witness :
    vsW.face_mode = FaceDrawMode.none ∧ vsW.edge_mode = EdgeDrawMode.none ∧
    ((build_and_render_mesh (some (.halfEdgeMesh meshW)) vsW).1.produced =
      [BufferSet.overlay meshW.generate_face_overlay_buffers,
       BufferSet.points meshW.generate_point_buffers] ∧
    (build_and_render_mesh (some (.halfEdgeMesh meshW)) vsW).2 = .ok ()) :=
  ⟨rfl, rfl, build_none_modes_overlay_points meshW vsW rfl rfl⟩

/-! ## C9 -/

/-- C9: the triangle buffer set is selected by face-mode — actual-surface
mode follows the mesh's own smooth-normals preference, flat-debug forces
the flat generator, smooth-debug forces the smooth generator, and none
generates no triangle set (stated with edge-mode = none so the cycle
completes). -/
theorem triangle_buffers_by_face_mode (mesh : HalfEdgeMesh)
    (vs : Viewport3dSettings) (b : VertexIndexBuffers)
    (he : vs.edge_mode = EdgeDrawMode.none) :
    (vs.face_mode = FaceDrawMode.real → mesh.gen_config.smooth_normals = true →
      mesh.generate_triangle_buffers_smooth false = .ok b →
      triangleSets (build_and_render_mesh (some (.halfEdgeMesh mesh)) vs).1.produced = [b]) ∧
    (vs.face_mode = FaceDrawMode.real → mesh.gen_config.smooth_normals = false →
      mesh.generate_triangle_buffers_flat false = .ok b →
      triangleSets (build_and_render_mesh (some (.halfEdgeMesh mesh)) vs).1.produced = [b]) ∧
    (vs.face_mode = FaceDrawMode.flat →
      mesh.generate_triangle_buffers_flat true = .ok b →
      triangleSets (build_and_render_mesh (some (.halfEdgeMesh mesh)) vs).1.produced = [b]) ∧
    (vs.face_mode = FaceDrawMode.smooth →
      mesh.generate_triangle_buffers_smooth true = .ok b →
      triangleSets (build_and_render_mesh (some (.halfEdgeMesh mesh)) vs).1.produced = [b]) ∧
    (vs.face_mode = FaceDrawMode.none →
      triangleSets (build_and_render_mesh (some (.halfEdgeMesh mesh)) vs).1.produced = []) := by
  refine ⟨?_, ?_, ?_, ?_, ?_⟩
  · intro hf hs hb
    unfold build_and_render_mesh triangleStep edgeStep
    dsimp only
    rw [hf, he]
    dsimp only
    rw [hs, hb]
    rfl
  · intro hf hs hb
    unfold build_and_render_mesh triangleStep edgeStep
    dsimp only
    rw [hf, he]
    dsimp only
    rw [hs, hb]
    rfl
  · intro hf hb
    unfold build_and_render_mesh triangleStep edgeStep
    dsimp only
    rw [hf, he]
    dsimp only
    rw [hb]
    rfl
  · intro hf hb
    unfold build_and_render_mesh triangleStep edgeStep
    dsimp only
    rw [hf, he]
    dsimp only
    rw [hb]
    rfl
  · intro hf
    unfold build_and_render_mesh triangleStep edgeStep
    dsimp only
    rw [hf, he]
    rfl

/-- Witness for C9: the four face-modes exercised on concrete meshes (with
smooth-normals preference both on and off for actual-surface mode). -/
theorem triangle_buffers_by_face_mode_witness :
    triangleSets (build_and_render_mesh (some (.halfEdgeMesh meshW))
      ⟨.real, .none⟩).1.produced = [⟨[(0, 0, 0)], [(0, 1, 0)], [0]⟩] ∧
    triangleSets (build_and_render_mesh (some (.halfEdgeMesh { meshW with gen_config := ⟨false⟩ }))
      ⟨.real, .none⟩).1.produced = [⟨[(0, 0, 0)], [(0, 0, 1)], [0]⟩] ∧
    triangleSets (build_and_render_mesh (some (.halfEdgeMesh meshW))
      ⟨.flat, .none⟩).1.produced = [⟨[(0, 0, 0)], [(0, 0, 1)], [0]⟩] ∧
    triangleSets (build_and_render_mesh (some (.halfEdgeMesh meshW))
      ⟨.smooth, .none⟩).1.produced = [⟨[(0, 0, 0)], [(0, 1, 0)], [0]⟩] ∧
    triangleSets (build_and_render_mesh (some (.halfEdgeMesh meshW))
      ⟨.none, .none⟩).1.produced = [] :=
  ⟨(triangle_buffers_by_face_mode meshW ⟨.real, .none⟩ _ rfl).1 rfl rfl rfl,
   (triangle_buffers_by_face_mode { meshW with gen_config := ⟨false⟩ }
     ⟨.real, .none⟩ _ rfl).2.1 rfl rfl rfl,
   (triangle_buffers_by_face_mode meshW ⟨.flat, .none⟩ _ rfl).2.2.1 rfl rfl,
   (triangle_buffers_by_face_mode meshW ⟨.smooth, .none⟩ _ rfl).2.2.2.1 rfl rfl,
   (triangle_buffers_by_face_mode meshW ⟨.none, .none⟩
     ⟨[], [], []⟩ rfl).2.2.2.2 rfl⟩

/-! ## Association-list and zip lemmas -/

theorem mem_of_lookup_eq_some {α β : Type} [BEq α] [LawfulBEq α]
    {m : List (α × β)} {k : α} {v : β} (h : m.lookup k = some v) :
    (k, v) ∈ m := by
  rcases List.lookup_eq_some_iff.mp h with ⟨l₁, l₂, rfl, -⟩
  simp

theorem lookup_of_mem_nodup {α β : Type} [BEq α] [LawfulBEq α]
    {m : List (α × β)} (hnd : (m.map Prod.fst).Nodup) {k : α} {v : β}
    (hm : (k, v) ∈ m) : m.lookup k = some v := by
  induction m with
  | nil => cases hm
  | cons p rest ih =>
    obtain ⟨k', v'⟩ := p
    simp only [List.map_cons, List.nodup_cons] at hnd
    rcases List.mem_cons.mp hm with heq | hmem
    · rw [Prod.mk.injEq] at heq
      obtain ⟨rfl, rfl⟩ := heq
      exact List.lookup_cons_self
    · have hk : k ≠ k' := by
        intro he
        subst he
        exact hnd.1 (List.mem_map_of_mem Prod.fst hmem)
      have hb : (k == k') = false := by simp [hk]
      rw [List.lookup_cons, hb]
      exact ih hnd.2 hmem

theorem mem_zip_swap {α β : Type} {l₁ : List α} {l₂ : List β} {a : α} {b : β} :
    (a, b) ∈ l₁.zip l₂ ↔ (b, a) ∈ l₂.zip l₁ := by
  constructor <;> intro h
  · have := List.mem_map_of_mem Prod.swap h
    rwa [List.zip_swap] at this
  · have := List.mem_map_of_mem Prod.swap h
    rwa [List.zip_swap] at this

theorem exists_mem_zip_left {α β : Type} {l₁ : List α} {l₂ : List β}
    (hlen : l₁.length = l₂.length) {a : α} (ha : a ∈ l₁) :
    ∃ b, (a, b) ∈ l₁.zip l₂ := by
  induction l₁ generalizing l₂ with
  | nil => cases ha
  | cons x xs ih =>
    cases l₂ with
    | nil => simp at hlen
    | cons y ys =>
      rcases List.mem_cons.mp ha with rfl | hmem
      · exact ⟨y, by rw [List.zip_cons_cons]; exact List.mem_cons_self _ _⟩
      · rcases ih (by simpa using hlen) hmem with ⟨b, hb⟩
        exact ⟨b, by rw [List.zip_cons_cons]; exact List.mem_cons_of_mem _ hb⟩

/-! ## Structural lemmas for the node-registration pass -/

theorem add_node_fst_nodes_length (g : BjkGraph) (op : String)
    (ret : Option String) :
    (g.add_node op ret).1.nodes.length = g.nodes.length + 1 := by
  simp [BjkGraph.add_node]

theorem add_node_fst_connections (g : BjkGraph) (op : String)
    (ret : Option String) :
    (g.add_node op ret).1.connections = g.connections := rfl

theorem add_node_snd (g : BjkGraph) (op : String) (ret : Option String) :
    (g.add_node op ret).2 = g.nodes.length := rfl

theorem add_input_ok {g g' : BjkGraph} {id : BjkNodeId} {name : String}
    {ty : DataType} (h : BjkGraph.add_input g id name ty = .ok g') :
    g'.nodes.length = g.nodes.length ∧ g'.connections = g.connections := by
  unfold BjkGraph.add_input at h
  split at h
  · exact Except.noConfusion h
  · split at h
    · exact Except.noConfusion h
    · injection h with h'
      subst h'
      simp

theorem add_output_ok {g g' : BjkGraph} {id : BjkNodeId} {name : String}
    {ty : DataType} (h : BjkGraph.add_output g id name ty = .ok g') :
    g'.nodes.length = g.nodes.length ∧ g'.connections = g.connections := by
  unfold BjkGraph.add_output at h
  split at h
  · exact Except.noConfusion h
  · split at h
    · exact Except.noConfusion h
    · injection h with h'
      subst h'
      simp

theorem registerInputs_ok {g : Graph} {bjk_id : BjkNodeId} :
    ∀ {l : List (String × InputId)} {bjk : BjkGraph}
      {names : List (InputId × String)} {bjk' : BjkGraph}
      {names' : List (InputId × String)},
      registerInputs g bjk_id l bjk names = .ok (bjk', names') →
      bjk'.nodes.length = bjk.nodes.length ∧
      bjk'.connections = bjk.connections ∧
      names' = (l.map fun p => (p.2, p.1)).reverse ++ names := by
  intro l
  induction l with
  | nil =>
    intro bjk names bjk' names' h
    unfold registerInputs at h
    injection h with h'
    rw [Prod.mk.injEq] at h'
    obtain ⟨rfl, rfl⟩ := h'
    simp
  | cons p rest ih =>
    intro bjk names bjk' names' h
    obtain ⟨nm, iid⟩ := p
    unfold registerInputs at h
    cases hs : slotIndex g.inputs iid with
    | error e => rw [hs] at h; exact Except.noConfusion h
    | ok ip =>
      rw [hs] at h
      dsimp only at h
      cases ha : bjk.add_input bjk_id nm ip.typ with
      | error e => rw [ha] at h; exact Except.noConfusion h
      | ok bjk2 =>
        rw [ha] at h
        obtain ⟨h1, h2, h3⟩ := ih h
        obtain ⟨ha1, ha2⟩ := add_input_ok ha
        refine ⟨h1.trans ha1, h2.trans ha2, ?_⟩
        rw [h3]
        simp

theorem registerOutputs_ok {g : Graph} {bjk_id : BjkNodeId} :
    ∀ {l : List (String × OutputId)} {bjk : BjkGraph}
      {names : List (OutputId × String)} {bjk' : BjkGraph}
      {names' : List (OutputId × String)},
      registerOutputs g bjk_id l bjk names = .ok (bjk', names') →
      bjk'.nodes.length = bjk.nodes.length ∧
      bjk'.connections = bjk.connections := by
  intro l
  induction l with
  | nil =>
    intro bjk names bjk' names' h
    unfold registerOutputs at h
    injection h with h'
    rw [Prod.mk.injEq] at h'
    obtain ⟨rfl, rfl⟩ := h'
    exact ⟨rfl, rfl⟩
  | cons p rest ih =>
    intro bjk names bjk' names' h
    obtain ⟨nm, oid⟩ := p
    unfold registerOutputs at h
    cases hs : slotIndex g.outputs oid with
    | error e => rw [hs] at h; exact Except.noConfusion h
    | ok op =>
      rw [hs] at h
      dsimp only at h
      cases ha : bjk.add_output bjk_id nm op.typ with
      | error e => rw [ha] at h; exact Except.noConfusion h
      | ok bjk2 =>
        rw [ha] at h
        obtain ⟨h1, h2⟩ := ih h
        obtain ⟨ha1, ha2⟩ := add_output_ok ha
        exact ⟨h1.trans ha1, h2.trans ha2⟩

theorem processNode_ok {g : Graph} {st : TransState} {node_id : NodeId}
    {node : UiNode} {st' : TransState}
    (h : processNode g st node_id node = .ok st') :
    st'.bjk_graph.nodes.length = st.bjk_graph.nodes.length + 1 ∧
    st'.bjk_graph.connections = st.bjk_graph.connections ∧
    st'.mapping = (node_id, st.bjk_graph.nodes.length) :: st.mapping ∧
    st'.rev_mapping = (st.bjk_graph.nodes.length, node_id) :: st.rev_mapping ∧
    st'.input_names = (node.inputs.map fun p => (p.2, p.1)).reverse ++ st.input_names := by
  unfold processNode at h
  dsimp only at h
  cases hr : registerInputs g
      (st.bjk_graph.add_node node.user_data.op_name node.user_data.returns).2
      node.inputs
      (st.bjk_graph.add_node node.user_data.op_name node.user_data.returns).1
      st.input_names with
  | error e => rw [hr] at h; exact Except.noConfusion h
  | ok pr =>
    obtain ⟨bjk2, input_names2⟩ := pr
    rw [hr] at h
    dsimp only at h
    cases ho : registerOutputs g
        (st.bjk_graph.add_node node.user_data.op_name node.user_data.returns).2
        node.outputs bjk2 st.output_names with
    | error e => rw [ho] at h; exact Except.noConfusion h
    | ok pro =>
      obtain ⟨bjk3, output_names3⟩ := pro
      rw [ho] at h
      injection h with h'
      subst h'
      obtain ⟨ri1, ri2, ri3⟩ := registerInputs_ok hr
      obtain ⟨ro1, ro2⟩ := registerOutputs_ok ho
      refine ⟨?_, ?_, rfl, rfl, ri3⟩
      · rw [ro1, ri1, add_node_fst_nodes_length]
      · exact ro2.trans (ri2.trans (add_node_fst_connections _ _ _))

theorem processNodes_ok {g : Graph} :
    ∀ {l : List (NodeId × UiNode)} {st st' : TransState},
      processNodes g l st = .ok st' →
      st'.bjk_graph.nodes.length = st.bjk_graph.nodes.length + l.length ∧
      st'.bjk_graph.connections = st.bjk_graph.connections ∧
      st'.mapping = ((l.map Prod.fst).zip
        (List.range' st.bjk_graph.nodes.length l.length)).reverse ++ st.mapping ∧
      st'.rev_mapping = ((List.range' st.bjk_graph.nodes.length l.length).zip
        (l.map Prod.fst)).reverse ++ st.rev_mapping ∧
      ∀ i, (∀ p ∈ l, ∀ nm, (nm, i) ∉ p.2.inputs) →
        st'.input_names.lookup i = st.input_names.lookup i := by
  intro l
  induction l with
  | nil =>
    intro st st' h
    unfold processNodes at h
    injection h with h'
    subst h'
    simp
  | cons p rest ih =>
    intro st st' h
    obtain ⟨nid, nd⟩ := p
    unfold processNodes at h
    cases hp : processNode g st nid nd with
    | error e => rw [hp] at h; exact Except.noConfusion h
    | ok st1 =>
      rw [hp] at h
      obtain ⟨n1, c1, m1, r1, i1⟩ := processNode_ok hp
      obtain ⟨n2, c2, m2, r2, i2⟩ := ih h
      refine ⟨?_, c2.trans c1, ?_, ?_, ?_⟩
      · rw [n2, n1]
        simp only [List.length_cons]
        omega
      · rw [m2, m1, n1]
        simp [List.length_cons, List.range'_succ, List.zip_cons_cons,
          List.append_assoc]
      · rw [r2, r1, n1]
        simp [List.length_cons, List.range'_succ, List.zip_cons_cons,
          List.append_assoc]
      · intro i hi
        have htail : ∀ q ∈ rest, ∀ nm, (nm, i) ∉ q.2.inputs :=
          fun q hq => hi q (List.mem_cons_of_mem _ hq)
        have hhead : ∀ nm, (nm, i) ∉ nd.inputs :=
          hi (nid, nd) (List.mem_cons_self _ _)
        rw [i2 i htail, i1, List.lookup_append]
        have hnone : ((nd.inputs.map fun q => (q.2, q.1)).reverse).lookup i = none := by
          rw [List.lookup_eq_none_iff]
          intro q hq
          rw [List.mem_reverse] at hq
          rcases List.mem_map.mp hq with ⟨r, hr, rfl⟩
          simp only [bne_iff_ne, ne_eq]
          intro hcon
          refine hhead r.1 ?_
          rw [hcon]
          exact hr
        rw [hnone, Option.none_or]

/-! ## Structural lemmas for the connection-registration pass -/

theorem add_connection_ok {g g' : BjkGraph} {a : BjkNodeId} {pa : String}
    {b : BjkNodeId} {pb : String}
    (h : BjkGraph.add_connection g a pa b pb = .ok g') :
    g'.nodes.length = g.nodes.length ∧
    g'.connections.length = g.connections.length + 1 := by
  unfold BjkGraph.add_connection at h
  split at h
  · split at h
    · split at h
      · injection h with h'
        subst h'
        simp
      · exact Except.noConfusion h
    · exact Except.noConfusion h
  · exact Except.noConfusion h

theorem processConnection_ok {g : Graph} {st : TransState} {bjk : BjkGraph}
    {c : InputId × OutputId} {bjk' : BjkGraph}
    (h : processConnection g st bjk c = .ok bjk') :
    bjk'.nodes.length = bjk.nodes.length ∧
    bjk'.connections.length = bjk.connections.length + 1 := by
  unfold processConnection at h
  repeat' split at h
  all_goals try exact Except.noConfusion h
  exact add_connection_ok h

theorem processConnection_bad_input {g : Graph} {st : TransState}
    {bjk : BjkGraph} {i : InputId} {o : OutputId}
    (h : st.input_names.lookup i = none) :
    processConnection g st bjk (i, o) =
      .error (.panicked "no entry found for key") := by
  unfold processConnection slotIndex
  dsimp only
  rw [h]

theorem processConnections_ok {g : Graph} {st : TransState} :
    ∀ {l : List (InputId × OutputId)} {bjk bjk' : BjkGraph},
      processConnections g st l bjk = .ok bjk' →
      bjk'.nodes.length = bjk.nodes.length ∧
      bjk'.connections.length = bjk.connections.length + l.length := by
  intro l
  induction l with
  | nil =>
    intro bjk bjk' h
    unfold processConnections at h
    injection h with h'
    subst h'
    simp
  | cons c rest ih =>
    intro bjk bjk' h
    unfold processConnections at h
    cases hc : processConnection g st bjk c with
    | error e => rw [hc] at h; exact Except.noConfusion h
    | ok bjk1 =>
      rw [hc] at h
      obtain ⟨m1, m2⟩ := processConnection_ok hc
      obtain ⟨k1, k2⟩ := ih h
      refine ⟨k1.trans m1, ?_⟩
      rw [k2, m2]
      simp only [List.length_cons]
      omega

theorem processConnections_fail {g : Graph} {st : TransState} :
    ∀ {l : List (InputId × OutputId)} {i : InputId} {o : OutputId},
      (i, o) ∈ l → st.input_names.lookup i = none →
      ∀ bjk, exOk (processConnections g st l bjk) = false := by
  intro l
  induction l with
  | nil => intro i o hm; cases hm
  | cons c rest ih =>
    intro i o hm hnone bjk
    unfold processConnections
    rcases List.mem_cons.mp hm with rfl | hmem
    · rw [processConnection_bad_input hnone]
      rfl
    · cases hc : processConnection g st bjk c with
      | error e => rfl
      | ok bjk1 => exact ih hmem hnone bjk1

/-! ## The shape of a successful translation -/

theorem translation_mapping_spec {g : Graph} {bjk : BjkGraph} {m : NodeMapping}
    (h : ui_graph_to_blackjack_graph g = .ok (bjk, m)) :
    bjk.nodes.length = g.nodes.length ∧
    bjk.connections.length = g.connections.length ∧
    m.fwd = ((g.nodes.map Prod.fst).zip
      (List.range' 0 g.nodes.length)).reverse ∧
    m.rev = ((List.range' 0 g.nodes.length).zip
      (g.nodes.map Prod.fst)).reverse := by
  unfold ui_graph_to_blackjack_graph at h
  cases hp : processNodes g g.nodes initTransState with
  | error e => rw [hp] at h; exact Except.noConfusion h
  | ok st =>
    rw [hp] at h
    dsimp only at h
    cases hc : processConnections g st g.connections st.bjk_graph with
    | error e => rw [hc] at h; exact Except.noConfusion h
    | ok bjk0 =>
      rw [hc] at h
      injection h with h'
      rw [Prod.mk.injEq] at h'
      obtain ⟨rfl, rfl⟩ := h'
      obtain ⟨n1, c1, m1, r1, -⟩ := processNodes_ok hp
      obtain ⟨k1, k2⟩ := processConnections_ok hc
      refine ⟨?_, ?_, ?_, ?_⟩
      · rw [k1, n1]
        simp [initTransState, BjkGraph.new]
      · rw [k2, c1]
        simp [initTransState, BjkGraph.new]
      · rw [show (NodeMapping.mk st.mapping st.rev_mapping).fwd = st.mapping from rfl, m1]
        simp [initTransState, BjkGraph.new]
      · rw [show (NodeMapping.mk st.mapping st.rev_mapping).rev = st.rev_mapping from rfl, r1]
        simp [initTransState, BjkGraph.new]

theorem translation_fwd_lookup_iff {g : Graph} {bjk : BjkGraph}
    {m : NodeMapping} (h : ui_graph_to_blackjack_graph g = .ok (bjk, m))
    (hnd : (g.nodes.map Prod.fst).Nodup) (u : NodeId) (b : BjkNodeId) :
    m.fwd.lookup u = some b ↔
      (u, b) ∈ (g.nodes.map Prod.fst).zip (List.range' 0 g.nodes.length) := by
  obtain ⟨-, -, hfwd, -⟩ := translation_mapping_spec h
  constructor
  · intro hl
    have := mem_of_lookup_eq_some hl
    rw [hfwd, List.mem_reverse] at this
    exact this
  · intro hm'
    have hkeys : (m.fwd.map Prod.fst).Nodup := by
      rw [hfwd, List.map_reverse, List.map_fst_zip _ _
        (by simp [List.length_range']), List.nodup_reverse]
      exact hnd
    refine lookup_of_mem_nodup hkeys ?_
    rw [hfwd, List.mem_reverse]
    exact hm'

theorem translation_rev_lookup_iff {g : Graph} {bjk : BjkGraph}
    {m : NodeMapping} (h : ui_graph_to_blackjack_graph g = .ok (bjk, m))
    (b : BjkNodeId) (u : NodeId) :
    m.rev.lookup b = some u ↔
      (b, u) ∈ (List.range' 0 g.nodes.length).zip (g.nodes.map Prod.fst) := by
  obtain ⟨-, -, -, hrev⟩ := translation_mapping_spec h
  constructor
  · intro hl
    have := mem_of_lookup_eq_some hl
    rw [hrev, List.mem_reverse] at this
    exact this
  · intro hm'
    have hkeys : (m.rev.map Prod.fst).Nodup := by
      rw [hrev, List.map_reverse, List.map_fst_zip _ _
        (by simp [List.length_range']), List.nodup_reverse]
      exact List.nodup_range' 0 g.nodes.length
    refine lookup_of_mem_nodup hkeys ?_
    rw [hrev, List.mem_reverse]
    exact hm'

/-! ## C3 -/

/-- C3: when translation succeeds on a UI graph with N nodes and C
connections (UI node identities being distinct, a slotmap invariant), the
compiler graph has exactly N nodes and C connections, and the mapping is
a total bijection over the UI node identities: defined exactly on them,
injective, landing inside the compiler node identities with the reverse
direction as inverse, and onto the compiler node identities. -/
theorem translation_counts_and_bijection (g : Graph) (bjk : BjkGraph)
    (m : NodeMapping) (h : ui_graph_to_blackjack_graph g = .ok (bjk, m))
    (hnd : (g.nodes.map Prod.fst).Nodup) :
    bjk.nodes.length = g.nodes.length ∧
    bjk.connections.length = g.connections.length ∧
    (∀ u, (g.nodes.lookup u).isSome ↔ (m.fwd.lookup u).isSome) ∧
    (∀ u₁ u₂ b, m.fwd.lookup u₁ = some b → m.fwd.lookup u₂ = some b →
      u₁ = u₂) ∧
    (∀ u b, m.fwd.lookup u = some b →
      b < bjk.nodes.length ∧ m.rev.lookup b = some u) ∧
    (∀ b, b < bjk.nodes.length → ∃ u, m.fwd.lookup u = some b) := by
  obtain ⟨hN, hC, -, -⟩ := translation_mapping_spec h
  have hlen : (g.nodes.map Prod.fst).length =
      (List.range' 0 g.nodes.length).length := by
    simp [List.length_range']
  refine ⟨hN, hC, ?_, ?_, ?_, ?_⟩
  · intro u
    constructor
    · intro hu
      rcases Option.isSome_iff_exists.mp hu with ⟨nd, hnd'⟩
      have humem : u ∈ g.nodes.map Prod.fst :=
        List.mem_map_of_mem Prod.fst (mem_of_lookup_eq_some hnd')
      rcases exists_mem_zip_left hlen humem with ⟨b, hb⟩
      rw [(translation_fwd_lookup_iff h hnd u b).mpr hb]
      rfl
    · intro hu
      rcases Option.isSome_iff_exists.mp hu with ⟨b, hb⟩
      have hmz := (translation_fwd_lookup_iff h hnd u b).mp hb
      have humem := (List.of_mem_zip hmz).1
      rcases List.mem_map.mp humem with ⟨p, hp, rfl⟩
      rw [List.lookup_isSome_iff]
      exact ⟨p, hp, by simp⟩
  · intro u₁ u₂ b h1 h2
    have r1 := (translation_rev_lookup_iff h b u₁).mpr
      (mem_zip_swap.mp ((translation_fwd_lookup_iff h hnd u₁ b).mp h1))
    have r2 := (translation_rev_lookup_iff h b u₂).mpr
      (mem_zip_swap.mp ((translation_fwd_lookup_iff h hnd u₂ b).mp h2))
    rw [r1] at r2
    exact Option.some.inj r2
  · intro u b hb
    have hmz := (translation_fwd_lookup_iff h hnd u b).mp hb
    have hbr := (List.of_mem_zip hmz).2
    rw [List.mem_range'_1] at hbr
    refine ⟨?_, (translation_rev_lookup_iff h b u).mpr (mem_zip_swap.mp hmz)⟩
    rw [hN]
    simpa using hbr.2
  · intro b hb
    rw [hN] at hb
    have hbr : b ∈ List.range' 0 g.nodes.length := by
      rw [List.mem_range'_1]
      omega
    rcases exists_mem_zip_left hlen.symm hbr with ⟨u, hu⟩
    exact ⟨u, (translation_fwd_lookup_iff h hnd u b).mpr (mem_zip_swap.mp hu)⟩

/-- Witness for C3 at the two-node fixture graph `gW` (2 nodes, 1
connection). -/
theorem translation_counts_and_bijection_witness :
    ui_graph_to_blackjack_graph gW = .ok (bjkW, mWm) ∧
    (gW.nodes.map Prod.fst).Nodup ∧
    bjkW.nodes.length = gW.nodes.length ∧
    bjkW.connections.length = gW.connections.length ∧
    ((gW.nodes.lookup 0).isSome ↔ (mWm.fwd.lookup 0).isSome) :=
  ⟨rfl, by decide,
   (translation_counts_and_bijection gW bjkW mWm rfl (by decide)).1,
   (translation_counts_and_bijection gW bjkW mWm rfl (by decide)).2.1,
   (translation_counts_and_bijection gW bjkW mWm rfl (by decide)).2.2.1 0⟩

/-! ## C4 -/

/-- C4: for a successful translation (UI node identities distinct), the two
directions of the produced mapping are mutually inverse: looking up a
forward image in the reverse direction returns the original UI identity,
and symmetrically for every compiler identity in the reverse map. -/
theorem mapping_round_trip (g : Graph) (bjk : BjkGraph) (m : NodeMapping)
    (h : ui_graph_to_blackjack_graph g = .ok (bjk, m))
    (hnd : (g.nodes.map Prod.fst).Nodup) :
    (∀ u b, m.fwd.lookup u = some b → m.rev.lookup b = some u) ∧
    (∀ b u, m.rev.lookup b = some u → m.fwd.lookup u = some b) := by
  constructor
  · intro u b hb
    exact (translation_rev_lookup_iff h b u).mpr
      (mem_zip_swap.mp ((translation_fwd_lookup_iff h hnd u b).mp hb))
  · intro b u hu
    exact (translation_fwd_lookup_iff h hnd u b).mpr
      (mem_zip_swap.mp ((translation_rev_lookup_iff h b u).mp hu))

/-- Witness for C4: both round trips at the fixture graph `gW`. -/
theorem mapping_round_trip_witness :
    mWm.rev.lookup 0 = some 0 ∧ mWm.rev.lookup 1 = some 1 ∧
    mWm.fwd.lookup 0 = some 0 :=
  ⟨(mapping_round_trip gW bjkW mWm rfl (by decide)).1 0 0 rfl,
   (mapping_round_trip gW bjkW mWm rfl (by decide)).1 1 1 rfl,
   (mapping_round_trip gW bjkW mWm rfl (by decide)).2 0 0 rfl⟩

/-! ## C5 -/

/-- Counterexample to C5 as stated: `gC5` has a connection whose input
socket 100 is registered on no node, yet translation does not return a
GraphConstructionError — the secondary-map name lookup panics (a Rust
panic, modelled as `Err.panicked`), so no error value of the claimed kind
is ever returned. -/
theorem unregistered_socket_panics :
    ui_graph_to_blackjack_graph gC5 =
      .error (.panicked "no entry found for key") ∧
    returnsGraphConstruction (ui_graph_to_blackjack_graph gC5) = false ∧
    (100, 200) ∈ gC5.connections ∧
    gC5.nodes.all (fun p => p.2.inputs.all (fun q => q.2 != 100)) = true :=
  ⟨rfl, rfl, by decide, by decide⟩

/-- C5 (amended): for every UI graph containing a connection whose input
socket was never registered on any node, translation fails — by a panic
in the socket-name lookup rather than by returning a
GraphConstructionError — and returns no compiler graph, partial or
otherwise; any failure during translation aborts the whole
translation. -/
theorem unregistered_socket_aborts (g : Graph) (i : InputId) (o : OutputId)
    (hc : (i, o) ∈ g.connections)
    (hno : ∀ p ∈ g.nodes, ∀ nm, (nm, i) ∉ p.2.inputs) :
    exOk (ui_graph_to_blackjack_graph g) = false := by
  unfold ui_graph_to_blackjack_graph
  cases hp : processNodes g g.nodes initTransState with
  | error e => rfl
  | ok st =>
    dsimp only
    obtain ⟨-, -, -, -, hin⟩ := processNodes_ok hp
    have hnone : st.input_names.lookup i = none := by
      rw [hin i hno]
      rfl
    have hfail := @processConnections_fail g st g.connections i o hc hnone st.bjk_graph
    cases hc2 : processConnections g st g.connections st.bjk_graph with
    | error e => rfl
    | ok bjk =>
      rw [hc2] at hfail
      simp [exOk] at hfail

/-- Witness for C5 (amended) at the stale-connection fixture `gC5`. -/
theorem unregistered_socket_aborts_witness :
    ((100, 200) ∈ gC5.connections) ∧
    exOk (ui_graph_to_blackjack_graph gC5) = false := by
  refine ⟨by decide, unregistered_socket_aborts gC5 100 200 (by decide) ?_⟩
  intro p hp nm
  simp [gC5] at hp
  subst hp
  exact List.not_mem_nil _

/-! ## Parameter-extraction lemmas -/

theorem lookup_filter_ne {β : Type} :
    ∀ {ps : List (String × β)} {a k : String}, a ≠ k →
      (ps.filter fun p => p.1 ≠ k).lookup a = ps.lookup a := by
  intro ps
  induction ps with
  | nil => intro a k h; rfl
  | cons p rest ih =>
    intro a k h
    obtain ⟨k', v'⟩ := p
    by_cases hk : k' = k
    · subst hk
      have hdrop : ((k', v') :: rest).filter (fun p => p.1 ≠ k') =
          rest.filter (fun p => p.1 ≠ k') := by
        simp [List.filter_cons]
      rw [hdrop, ih h]
      have hb : (a == k') = false := by simp [h]
      rw [List.lookup_cons, hb]
    · have hkeep : ((k', v') :: rest).filter (fun p => p.1 ≠ k) =
          (k', v') :: rest.filter (fun p => p.1 ≠ k) := by
        simp [List.filter_cons, hk]
      rw [hkeep]
      by_cases ha : a = k'
      · subst ha
        rw [List.lookup_cons_self, List.lookup_cons_self]
      · have hb : (a == k') = false := by simp [ha]
        rw [List.lookup_cons, hb, List.lookup_cons, hb, ih h]

theorem lookup_insertValue {ps : ExternalParameterValues} {k a : String}
    {v : BlackjackValue} :
    (insertValue ps k v).lookup a = if a = k then some v else ps.lookup a := by
  unfold insertValue
  by_cases h : a = k
  · subst h
    rw [if_pos rfl]
    exact List.lookup_cons_self
  · rw [if_neg h]
    have hb : (a == k) = false := by simp [h]
    rw [List.lookup_cons, hb]
    exact lookup_filter_ne h

theorem extractLoop_ok_of_resolve {g : Graph} {m : NodeMapping} :
    ∀ {ds : List ExternalParamDef} (ps : ExternalParameterValues),
      (∀ d ∈ ds, exOk (resolveParam g m d) = true) →
      ∃ params, extractLoop g m ds ps = .ok params := by
  intro ds
  induction ds with
  | nil => intro ps h; exact ⟨ps, rfl⟩
  | cons d rest ih =>
    intro ps h
    have hd := h d (List.mem_cons_self _ _)
    cases hr : resolveParam g m d with
    | error e => rw [hr] at hd; simp [exOk] at hd
    | ok v =>
      unfold extractLoop
      rw [hr]
      exact ih _ (fun d' hd' => h d' (List.mem_cons_of_mem _ hd'))

theorem extractLoop_lookup {g : Graph} {m : NodeMapping} :
    ∀ {ds : List ExternalParamDef} {ps params : ExternalParameterValues},
      extractLoop g m ds ps = .ok params →
      ∀ a, params.lookup a =
        match ds.reverse.find? (fun d => d.addr == a) with
        | some d => some (resolvedValue g m d)
        | none => ps.lookup a := by
  intro ds
  induction ds with
  | nil =>
    intro ps params h a
    unfold extractLoop at h
    injection h with h'
    subst h'
    rfl
  | cons d rest ih =>
    intro ps params h a
    unfold extractLoop at h
    cases hr : resolveParam g m d with
    | error e => rw [hr] at h; exact Except.noConfusion h
    | ok v =>
      rw [hr] at h
      have hrec := ih h a
      rw [hrec, List.reverse_cons, List.find?_append]
      cases hf : rest.reverse.find? (fun d' => d'.addr == a) with
      | some d' => rfl
      | none =>
        rw [lookup_insertValue]
        by_cases ha : a = d.addr
        · have hpd : (d.addr == a) = true := by simp [ha]
          rw [if_pos ha]
          simp [Option.none_or, List.find?_cons, hpd, resolvedValue, hr]
        · have hpd : (d.addr == a) = false := by
            simp only [beq_eq_false_iff_ne, ne_eq]
            exact fun hcc => ha hcc.symm
          rw [if_neg ha]
          simp [Option.none_or, List.find?_cons, hpd]

/-! ## C6 -/

/-- C6: when every external-parameter descriptor of a compiled program
resolves against the UI graph and mapping, extraction succeeds and yields
a table with an entry for every descriptor address, where each address
holds the resolved current widget value of the last descriptor carrying
that address (duplicate addresses overwrite, later descriptor wins). -/
theorem extract_params_table (g : Graph) (m : NodeMapping)
    (p : CompiledProgram)
    (hres : ∀ d ∈ p.external_parameters, exOk (resolveParam g m d) = true) :
    ∃ params, extract_graph_params g m p = .ok params ∧
      (∀ d ∈ p.external_parameters, (params.lookup d.addr).isSome = true) ∧
      (∀ a, params.lookup a =
        match p.external_parameters.reverse.find? (fun d => d.addr == a) with
        | some d => some (resolvedValue g m d)
        | none => none) := by
  obtain ⟨params, hp⟩ := extractLoop_ok_of_resolve [] hres
  refine ⟨params, hp, ?_, ?_⟩
  · intro d hd
    rw [extractLoop_lookup hp d.addr]
    have hex : ∃ x, x ∈ p.external_parameters.reverse ∧
        (fun d' => d'.addr == d.addr) x = true := ⟨d, by simp [hd], by simp⟩
    rcases Option.isSome_iff_exists.mp (List.find?_isSome.mpr hex) with ⟨d', hd'⟩
    rw [hd']
    rfl
  · intro a
    rw [extractLoop_lookup hp a]
    cases hf : p.external_parameters.reverse.find? (fun d => d.addr == a) <;> rfl

/-- Witness for C6: the spec's example (descriptor (node 0, "size", "p0"),
widget value 5/2, yielding p0 = 5/2) and a duplicate-address program where
the later descriptor wins. -/
theorem extract_params_table_witness :
    (∀ d ∈ pW.external_parameters, exOk (resolveParam gW mWm d) = true) ∧
    (∃ params, extract_graph_params gW mWm pW = .ok params ∧
      (∀ d ∈ pW.external_parameters, (params.lookup d.addr).isSome = true) ∧
      (∀ a, params.lookup a =
        match pW.external_parameters.reverse.find? (fun d => d.addr == a) with
        | some d => some (resolvedValue gW mWm d)
        | none => none)) ∧
    extract_graph_params gW mWm pW = .ok [("p0", .scalar (5/2))] ∧
    extract_graph_params gW mWm pDup = .ok [("p0", .scalar 0)] :=
  ⟨by decide, extract_params_table gW mWm pW (by decide), rfl, rfl⟩

end Blackjack
